import Mathlib

/-!
Formal model of the hamster/charm → Redmine time-tracking sync
(`hamster_redmine_sync.py` and `charm_redmine_sync.py`).

The development shallowly embeds the aggregation and reconciliation core of
the two scripts: calendar arithmetic for the period resolver, the per-day
duration bucketing with half-hour rounding, the issue-number extraction from
activity labels, the filter/create/update reconciler against the remote
service, and the issue importer that mirrors remote issues into local rows.
Machine floats are modelled as exact rationals; Python `timedelta.seconds`
is modelled as the mathematical `(end - start) mod 86400`; fallible Python
operations (for example `date.replace` with an out-of-range month, or
`strptime` applied to `None`) are modelled with `Option` / `Except`.
-/

namespace HRSync

/-- Gregorian leap-year test, as used by `datetime.date`. -/
def isLeap (y : Int) : Bool :=
  (y % 4 == 0 && y % 100 != 0) || (y % 400 == 0)

/-- Length of month `m` (1-based) in year `y`; `0` for an invalid month
index (`date.replace` rejects those before the day is ever checked). -/
def daysInMonth (y : Int) (m : Nat) : Nat :=
  match m with
  | 1 => 31
  | 2 => if isLeap y then 29 else 28
  | 3 => 31
  | 4 => 30
  | 5 => 31
  | 6 => 30
  | 7 => 31
  | 8 => 31
  | 9 => 30
  | 10 => 31
  | 11 => 30
  | 12 => 31
  | _ => 0

/-- A calendar date, as `datetime.date`: `year`, 1-based `month`, 1-based `day`. -/
structure Date where
  year : Int
  month : Nat
  day : Nat
  deriving DecidableEq, Repr

/-- `datetime.date.replace(day=..., month=...)`: validates the new fields and
raises `ValueError` (modelled as `none`) when the month is outside `1..12`
or the day does not fit the month. -/
def Date.replace (d : Date) (day : Nat) (month : Nat) : Option Date :=
  if 1 ≤ month ∧ month ≤ 12 ∧ 1 ≤ day ∧ day ≤ daysInMonth d.year month then
    some ⟨d.year, month, day⟩
  else
    none

/-- The previous calendar day (`- relativedelta(days=1)` for one step). -/
def Date.pred (d : Date) : Date :=
  if d.day > 1 then ⟨d.year, d.month, d.day - 1⟩
  else if d.month > 1 then ⟨d.year, d.month - 1, daysInMonth d.year (d.month - 1)⟩
  else ⟨d.year - 1, 12, 31⟩

/-- The next calendar day (`+ relativedelta(days=1)` for one step). -/
def Date.succ (d : Date) : Date :=
  if d.day < daysInMonth d.year d.month then ⟨d.year, d.month, d.day + 1⟩
  else if d.month < 12 then ⟨d.year, d.month + 1, 1⟩
  else ⟨d.year + 1, 1, 1⟩

/-- `d - relativedelta(days=n)`. -/
def Date.subDays (d : Date) : Nat → Date
  | 0 => d
  | n + 1 => (Date.pred d).subDays n

/-- `d + relativedelta(days=n)`. -/
def Date.addDays (d : Date) : Nat → Date
  | 0 => d
  | n + 1 => (Date.succ d).addDays n

/-- Days of years `1 .. y-1`, as in `datetime.date.toordinal`. -/
def daysBeforeYear (y : Int) : Int :=
  365 * (y - 1) + (y - 1) / 4 - (y - 1) / 100 + (y - 1) / 400

/-- Days of the months of `y` strictly before month `m`. -/
def daysBeforeMonth (y : Int) (m : Nat) : Nat :=
  (List.range (m - 1)).foldl (fun acc i => acc + daysInMonth y (i + 1)) 0

/-- `datetime.date.toordinal`: proleptic Gregorian ordinal,
with `0001-01-01` mapped to `1`. -/
def Date.toOrdinal (d : Date) : Int :=
  daysBeforeYear d.year + (daysBeforeMonth d.year d.month : Int) + (d.day : Int)

/-- `datetime.date.weekday`: Monday is `0`; `0001-01-01` was a Monday. -/
def Date.weekday (d : Date) : Nat :=
  ((d.toOrdinal - 1) % 7).toNat

/-- The `month` entry of the module-level `PERIODS` dict:
`(today.replace(day=1), today.replace(day=1, month=today.month+1) - relativedelta(days=1))`.
The second `replace` raises `ValueError` (modelled as `none`) when
`today.month + 1` is `13`, that is for every December reference date. -/
def month_range (today : Date) : Option (Date × Date) := do
  let first ← today.replace 1 today.month
  let next_first ← today.replace 1 (today.month + 1)
  pure (first, next_first.pred)

/-- The `week` entry of the `PERIODS` dict:
`(today - relativedelta(days=today.weekday()), today + relativedelta(days=6-today.weekday()))`. -/
def week_range (today : Date) : Date × Date :=
  (today.subDays today.weekday, today.addDays (6 - today.weekday))

/-- The sync period selector (`--period`, keys of `PERIODS`). -/
inductive Period where
  | week
  | month
  deriving DecidableEq, Repr

/-- The module-level `PERIODS` dict, evaluated once at import time; building
it evaluates both entries, so the import itself fails (`none`) whenever the
month entry raises. -/
def PERIODS (today : Date) : Option (Period → Date × Date) := do
  let m ← month_range today
  let w := week_range today
  pure (fun p => match p with | Period.month => m | Period.week => w)

/-- A wall-clock timestamp (`datetime.datetime`, naive). -/
structure DateTime where
  date : Date
  hour : Nat
  minute : Nat
  second : Nat
  deriving DecidableEq, Repr

/-- Seconds since the proleptic-Gregorian epoch, the linearisation used to
model `datetime` subtraction. -/
def DateTime.toSeconds (t : DateTime) : Int :=
  t.date.toOrdinal * 86400 + (t.hour : Int) * 3600 + (t.minute : Int) * 60 + (t.second : Int)

/-- Python `round` on the exact rational value of its argument: nearest
integer, ties to the even integer (round-half-to-even). -/
def pyRound (x : ℚ) : ℤ :=
  if x - ⌊x⌋ < 1/2 then ⌊x⌋
  else if (1 : ℚ)/2 < x - ⌊x⌋ then ⌊x⌋ + 1
  else if ⌊x⌋ % 2 = 0 then ⌊x⌋ else ⌊x⌋ + 1

/-- `round(raw_time * 2) / 2  # rounded on half hours` — the day-total
rounding applied by `get_spent_time_per_day` in both variants. -/
def round_half_hour (x : ℚ) : ℚ :=
  (pyRound (x * 2) : ℚ) / 2

/-- A row of the local `facts` table (hamster variant): one recorded time
interval with a required start and an optional end. -/
structure Fact where
  id : Nat
  activity_id : Nat
  start_time : DateTime
  end_time : Option DateTime
  description : String
  deriving DecidableEq, Repr

/-- `Fact.spent_time`: `-1` for an open entry; otherwise
`(end_time - start_time).seconds / 3600.`, where Python `timedelta.seconds`
is the seconds component after whole days, i.e. the difference mod 86400,
always in `[0, 86400)` even when the difference is negative. -/
def Fact.spent_time (f : Fact) : ℚ :=
  match f.end_time with
  | none => -1
  | some e => (((e.toSeconds - f.start_time.toSeconds) % 86400 : Int) : ℚ) / 3600

/-- A row of the local `categories` table; only the `name` column takes part
in the modelled logic. -/
structure Category where
  name : String
  deriving DecidableEq, Repr

/-- A row of the local `activities` table together with its precomputed
week/month fact relationships (the SQLAlchemy `facts_week` / `facts_month`
relationships, frozen at load time). `category` is the relationship to the
`categories` row, `none` when the foreign key is NULL; the columns that do
not take part in the modelled logic are omitted. -/
structure Activity where
  name : String
  search_name : String
  category : Option String
  facts_week : List Fact
  facts_month : List Fact
  deriving DecidableEq, Repr

/-- `getattr(self, 'facts_' + period)`. -/
def Activity.getFacts (a : Activity) : Period → List Fact
  | Period.week => a.facts_week
  | Period.month => a.facts_month

/-- `d[key] += value` on a `defaultdict(float)`, keeping the insertion order
of keys, as a Python dict does. -/
def addToBucket : List (Date × ℚ) → Date → ℚ → List (Date × ℚ)
  | [], k, v => [(k, v)]
  | (k', v') :: rest, k, v =>
    if k' = k then (k', v' + v) :: rest else (k', v') :: addToBucket rest k v

/-- `Activity.get_spent_time_per_day(begin_date, end_date, period='week')`:
buckets the facts of the selected relationship by the calendar date of
their start, sums `spent_time`, then rounds every bucket to the nearest
half hour. The `begin_date` / `end_date` arguments are accepted and ignored
by the source body, and the caller in `sync_timeentries` passes the range
positionally, leaving `period` at its default. -/
def Activity.get_spent_time_per_day (a : Activity) (begin_date end_date : Date)
    (period : Period := Period.week) : List (Date × ℚ) :=
  let _ := begin_date
  let _ := end_date
  let d := (a.getFacts period).foldl
    (fun acc fact => addToBucket acc fact.start_time.date fact.spent_time) []
  d.map (fun kv => (kv.1, round_half_hour kv.2))

/-- Take the maximal leading run of decimal digits of a character list,
returning the run and the remaining characters. -/
def takeDigits : List Char → List Char × List Char
  | [] => ([], [])
  | c :: cs =>
    if c.isDigit then
      let p := takeDigits cs
      (c :: p.1, p.2)
    else ([], c :: cs)

/-- Left-to-right scan implementing `re.findall(r'#(\d+)', s)`: every
non-overlapping occurrence of `#` immediately followed by a maximal
non-empty digit run contributes the digit run (the capture group). The
`fuel` argument only makes the recursion structural; each step consumes at
least one character and exactly one unit of fuel, so fuel equal to the
input length is never exhausted. -/
def findIssueRefsAux (fuel : Nat) (l : List Char) : List (List Char) :=
  match fuel, l with
  | 0, _ => []
  | _ + 1, [] => []
  | fuel + 1, c :: cs =>
    if c = '#' then
      match takeDigits cs with
      | ([], _) => findIssueRefsAux fuel cs
      | (d :: ds, rest) => (d :: ds) :: findIssueRefsAux fuel rest
    else findIssueRefsAux fuel cs

/-- The scan of a whole character list. -/
def findIssueRefs (l : List Char) : List (List Char) :=
  findIssueRefsAux l.length l

/-- `re.findall(r'#(\d+)', name)`: the list of embedded issue numbers, in
order, as digit strings. -/
def findall_issue (s : String) : List String :=
  (findIssueRefs s.data).map (fun ds => String.mk ds)

/-- A remote time entry as returned by
`redm.time_entry.filter(spent_on=..., issue_id=..., user_id=...)`:
its remote identifier and stored hours. -/
structure RemoteTimeEntry where
  id : Nat
  hours : ℚ
  deriving DecidableEq, Repr

/-- A remote interaction issued by the reconciler. Issue ids travel as the
digit strings extracted from activity labels (the charm variant passes its
integer `task_id` instead; the reconciliation logic is otherwise verbatim
identical in the two scripts). -/
inductive RemoteCall where
  | filter (spent_on : Date) (issue_id : String) (user_id : Nat)
  | create (spent_on : Date) (issue_id : String) (hours : ℚ) (activity_id : Nat)
  | update (entry_id : Nat) (spent_on : Date) (issue_id : String) (hours : ℚ)
      (activity_id : Nat)
  deriving DecidableEq, Repr

/-- The `spent_on` date a remote call refers to. -/
def RemoteCall.date : RemoteCall → Date
  | RemoteCall.filter d _ _ => d
  | RemoteCall.create d _ _ _ => d
  | RemoteCall.update _ d _ _ _ => d

/-- A status line printed per date (`(new)` / `(updated)`). -/
inductive Report where
  | new
  | updated
  deriving DecidableEq, Repr

/-- Outcome of one `_push_time_entry` reconciliation, given the entries the
remote filter returned: whether the multiple-entries error was logged, the
write calls issued, and the status lines printed. -/
structure PushResult where
  error_logged : Bool
  writes : List RemoteCall
  reports : List Report
  deriving DecidableEq, Repr

/-- `HamsterRedmine._push_time_entry` minus the initial filter round-trip
(`entries` is its result). The source logs an error when `len(entries) > 1`
but does not return; it then tests `len(entries) == 1`, so both the
zero-match case and the many-match case fall into the `else` branch and
issue a create with `activity_id=9`. -/
def push_time_entry (spent_time : ℚ) (issue_id : String) (date : Date)
    (entries : List RemoteTimeEntry) : PushResult :=
  let error_logged := decide (1 < entries.length)
  match entries with
  | [e] =>
    if e.hours ≠ spent_time then
      ⟨error_logged, [RemoteCall.update e.id date issue_id spent_time 9], [Report.updated]⟩
    else
      ⟨error_logged, [], []⟩
  | _ => ⟨error_logged, [RemoteCall.create date issue_id spent_time 9], [Report.new]⟩

/-- The full remote trace of one `_push_time_entry` call: the filter
round-trip, then the writes decided from its result. `remote` is the state
of the remote service, as a function from `(spent_on, issue_id)` to the
matching entries of the configured user. -/
def push_calls (user_id : Nat) (remote : Date → String → List RemoteTimeEntry)
    (spent_time : ℚ) (issue_id : String) (date : Date) : List RemoteCall :=
  RemoteCall.filter date issue_id user_id ::
    (push_time_entry spent_time issue_id date (remote date issue_id)).writes

/-- One `_push_time_entry(spent_time, issue_id, date)` invocation recorded
by the `sync_timeentries` loop. -/
structure Push where
  spent_time : ℚ
  issue_id : String
  date : Date
  deriving DecidableEq, Repr

/-- The per-activity body of `HamsterRedmine.sync_timeentries`: extract the
issue id as the first `#(\d+)` match of the label (an `IndexError`, i.e. no
match, silently skips the activity); aggregate per day; then invoke
`_push_time_entry` for every date whose value is truthy (non-zero). -/
def activity_pushes (begin_date end_date : Date) (a : Activity) : List Push :=
  match findall_issue a.name with
  | [] => []
  | issue_id :: _ =>
    (a.get_spent_time_per_day begin_date end_date).filterMap
      (fun kv => if kv.2 ≠ 0 then some ⟨kv.2, issue_id, kv.1⟩ else none)

/-- The remote calls one activity produces during `sync_timeentries`. -/
def activity_calls (user_id : Nat) (remote : Date → String → List RemoteTimeEntry)
    (begin_date end_date : Date) (a : Activity) : List RemoteCall :=
  (activity_pushes begin_date end_date a).foldr
    (fun p acc => push_calls user_id remote p.spent_time p.issue_id p.date ++ acc) []

/-- `HamsterRedmine.sync_timeentries(period)`: resolve the period range from
the import-time `PERIODS` dict (whose construction itself fails for a
December reference date), then run the per-activity loop. Returns the
recorded `_push_time_entry` invocations. -/
def sync_timeentries (today : Date) (activities : List Activity) (period : Period) :
    Option (List Push) := do
  let tbl ← PERIODS today
  let date_range := tbl period
  pure (activities.foldr
    (fun a acc => activity_pushes date_range.1 date_range.2 a ++ acc) [])

/-- The remote trace of a whole `sync_timeentries` run. -/
def sync_calls (user_id : Nat) (remote : Date → String → List RemoteTimeEntry)
    (today : Date) (activities : List Activity) (period : Period) :
    Option (List RemoteCall) := do
  let tbl ← PERIODS today
  let date_range := tbl period
  pure (activities.foldr
    (fun a acc => activity_calls user_id remote date_range.1 date_range.2 a ++ acc) [])

/-- A remote issue as consumed by `sync_redmine_issues`
(`redm.issue.filter(assigned_to_id='me')`). -/
structure Issue where
  id : Nat
  subject : String
  project_name : String
  deriving DecidableEq, Repr

/-- The local store rows visible to the importer session; `session.add`
appends, and `query(...).first()` sees pending rows (autoflush). -/
structure DBState where
  categories : List Category
  activities : List Activity
  deriving DecidableEq, Repr

/-- One iteration of the `for issue in hissues` loop of
`HamsterRedmine.sync_redmine_issues`: the Python local `category` holds the
result of the query that ran BEFORE the missing Category row was added, so
in the create-category case the new Activity row is built with
`category=None`. -/
def sync_issue_step (st : DBState) (issue : Issue) : DBState :=
  let cat_name := issue.project_name
  let act_name := "#" ++ toString issue.id ++ " - " ++ issue.subject
  let act_search := issue.subject ++ " " ++ toString issue.id
  let category := st.categories.find? (fun c => c.name == cat_name)
  let st1 :=
    if category.isSome then st
    else { st with categories := st.categories ++ [⟨cat_name⟩] }
  let activity := st1.activities.find? (fun a => a.name == act_name)
  if activity.isSome then st1
  else
    { st1 with activities := st1.activities ++
        [{ name := act_name, search_name := act_search,
           category := category.map (fun c => c.name),
           facts_week := [], facts_month := [] }] }

/-- `HamsterRedmine.sync_redmine_issues`: one pass over the remotely
assigned issues, then a single commit (the commit itself adds nothing to
the model). -/
def sync_redmine_issues (st : DBState) (issues : List Issue) : DBState :=
  issues.foldl sync_issue_step st

/-- A Python exception class relevant to the modelled code paths. -/
inductive PyError where
  | typeError
  | valueError
  deriving DecidableEq, Repr

/-- `datetime.datetime.strptime(s, '%Y-%m-%dT%H:%M:%S')` applied to a
nullable column value: `None` raises `TypeError`; a string that does not
match the format raises `ValueError`; a matching string parses. A
successful parse always returns a datetime, never `None`. -/
def strptime (s : Option String) : Except PyError DateTime :=
  match s with
  | none => Except.error PyError.typeError
  | some str =>
    match str.splitOn "T" with
    | [d, t] =>
      match d.splitOn "-", t.splitOn ":" with
      | [ys, ms, ds], [hs, mins, ss] =>
        match ys.toNat?, ms.toNat?, ds.toNat?, hs.toNat?, mins.toNat?, ss.toNat? with
        | some y, some mo, some da, some h, some mi, some sec =>
          if 1 ≤ mo ∧ mo ≤ 12 ∧ 1 ≤ da ∧ da ≤ daysInMonth y mo ∧
              h < 24 ∧ mi < 60 ∧ sec < 60 then
            Except.ok ⟨⟨(y : Int), mo, da⟩, h, mi, sec⟩
          else Except.error PyError.valueError
        | _, _, _, _, _, _ => Except.error PyError.valueError
      | _, _ => Except.error PyError.valueError
    | _ => Except.error PyError.valueError

/-- A row of the local `Events` table (charm variant); `start` and `end`
are nullable string columns holding ISO timestamps — the `end` column is
called `stop` here only because `end` is a reserved word in Lean. The
columns that do not take part in the modelled logic are omitted. -/
structure Event where
  id : Nat
  task : Nat
  comment : String
  start : Option String
  stop : Option String
  deriving DecidableEq, Repr

/-- `Event.start_date`: `strptime(self.start, '%Y-%m-%dT%H:%M:%S')`. -/
def Event.start_date (e : Event) : Except PyError DateTime :=
  strptime e.start

/-- `Event.end_date`: `strptime(self.end, '%Y-%m-%dT%H:%M:%S')`. -/
def Event.end_date (e : Event) : Except PyError DateTime :=
  strptime e.stop

/-- `Event.spent_time` (charm variant): evaluates `self.end_date` to test
`if self.end_date is None`; since the accessor either raises (propagating
the exception) or returns a datetime — never `None` — the then-branch
computing `(datetime.now() - self.start_date).seconds / 3600.` is
unreachable, and an open event (NULL `end`) raises `TypeError` inside
`strptime` instead of yielding elapsed-since-now hours. -/
def Event.spent_time (now : DateTime) (e : Event) : Except PyError ℚ := do
  let ed ← e.end_date
  let edOpt : Option DateTime := some ed
  match edOpt with
  | none => do
    let sd ← e.start_date
    pure ((((now.toSeconds - sd.toSeconds) % 86400 : Int) : ℚ) / 3600)
  | some ed => do
    let sd ← e.start_date
    pure ((((ed.toSeconds - sd.toSeconds) % 86400 : Int) : ℚ) / 3600)

/-- C2: the month resolver is NOT total. Evaluating the code at the failing
reference date 2024-12-15, `today.replace(day=1, month=13)` raises
`ValueError` (modelled as `none`), so no range at all is produced — and the
whole module-level `PERIODS` dict fails with it; at the reference date
2024-02-15 the resolver does return the inclusive leap-year range
`[2024-02-01, 2024-02-29]` exactly as the claim states. -/
theorem C2_month_resolver_december_failure :
    month_range ⟨2024, 12, 15⟩ = none ∧
    PERIODS ⟨2024, 12, 15⟩ = none ∧
    month_range ⟨2024, 2, 15⟩ = some (⟨2024, 2, 1⟩, ⟨2024, 2, 29⟩) := by
  refine ⟨by decide, ?_, by decide⟩
  simp [PERIODS, show month_range ⟨2024, 12, 15⟩ = none from by decide]

/-- C4: the day-total rounding is `x ↦ round(x * 2) / 2` with
round-half-to-even tie-breaking: it is the identity on every integer
multiple of `1/2`; it maps `1.24` to `1.0` and `1.26` to `1.5`; and every
`.25` tie `(2j+1)/4` is resolved to the neighbouring half-hour boundary
whose half-hour count `j + j % 2` is even. -/
theorem C4_round_half_hour_spec :
    (∀ k : ℤ, round_half_hour ((k : ℚ) / 2) = (k : ℚ) / 2) ∧
    round_half_hour (124/100) = 1 ∧
    round_half_hour (126/100) = 3/2 ∧
    (∀ j : ℤ, round_half_hour ((2 * (j : ℚ) + 1) / 4) = ((j + j % 2 : ℤ) : ℚ) / 2 ∧
      (j + j % 2) % 2 = 0) := by
  refine ⟨?_, ?_, ?_, ?_⟩
  · intro k
    have h2 : ((k : ℚ) / 2) * 2 = (k : ℚ) := div_mul_cancel₀ _ two_ne_zero
    simp only [round_half_hour, pyRound, h2, Int.floor_intCast, sub_self]
    norm_num
  · have hm : (124/100 : ℚ) * 2 = 62/25 := by norm_num
    have hf : ⌊(62/25 : ℚ)⌋ = 2 := by
      rw [Int.floor_eq_iff]; norm_num
    simp only [round_half_hour, hm, pyRound, hf]
    norm_num
  · have hm : (126/100 : ℚ) * 2 = 63/25 := by norm_num
    have hf : ⌊(63/25 : ℚ)⌋ = 2 := by
      rw [Int.floor_eq_iff]; norm_num
    simp only [round_half_hour, hm, pyRound, hf]
    norm_num
  · intro j
    have hx : (2 * (j : ℚ) + 1) / 4 * 2 = (j : ℚ) + 1/2 := by ring
    have h12 : ⌊(1/2 : ℚ)⌋ = 0 := by
      rw [Int.floor_eq_iff]; norm_num
    have hf : ⌊(j : ℚ) + 1/2⌋ = j := by
      rw [Int.floor_int_add, h12, add_zero]
    have hfrac : ((j : ℚ) + 1/2) - (j : ℚ) = 1/2 := by ring
    rcases Int.emod_two_eq j with h | h
    · constructor
      · simp only [round_half_hour, hx, pyRound, hf, hfrac, h]
        norm_num
      · omega
    · constructor
      · simp only [round_half_hour, hx, pyRound, hf, hfrac, h]
        norm_num
      · omega

/-- C1: when the remote filter returns more than one match, the reconciler
DOES issue a write. The source logs the multiple-entries error but does not
return; `len(entries) == 1` is false, so control falls into the `else`
branch and a create is issued, adding yet another duplicate entry. The
claim that no create and no update happens for the triple fails on every
filter result with two or more entries. -/
theorem C1_ambiguous_entries_still_create (spent_time : ℚ) (issue_id : String)
    (date : Date) (e1 e2 : RemoteTimeEntry) (rest : List RemoteTimeEntry) :
    push_time_entry spent_time issue_id date (e1 :: e2 :: rest) =
      ⟨true, [RemoteCall.create date issue_id spent_time 9], [Report.new]⟩ := by
  simp [push_time_entry]

/-- C5: the upsert is deterministic in the zero-match and one-match cases:
zero matches always create (reporting `new`); one match with equal hours
issues no write and no report; one match with different hours issues
exactly one update carrying the target hours and the fixed activity
classification `9` (reporting `updated`). -/
theorem C5_upsert_determinism (spent_time : ℚ) (issue_id : String) (date : Date)
    (e : RemoteTimeEntry) :
    push_time_entry spent_time issue_id date [] =
      ⟨false, [RemoteCall.create date issue_id spent_time 9], [Report.new]⟩ ∧
    (e.hours = spent_time → push_time_entry spent_time issue_id date [e] =
      ⟨false, [], []⟩) ∧
    (e.hours ≠ spent_time → push_time_entry spent_time issue_id date [e] =
      ⟨false, [RemoteCall.update e.id date issue_id spent_time 9], [Report.updated]⟩) := by
  refine ⟨rfl, ?_, ?_⟩
  · intro h
    simp [push_time_entry, h]
  · intro h
    simp [push_time_entry, h]

/-- Witness for C5 at concrete inputs: a single match with hours 5 against
target 5 is a no-op; against target 7 it is one update; an empty filter
result creates. -/
theorem C5_upsert_determinism_witness :
    (RemoteTimeEntry.mk 3 5).hours = 5 ∧
    push_time_entry 5 "42" ⟨2024, 3, 4⟩ [⟨3, 5⟩] = ⟨false, [], []⟩ ∧
    (RemoteTimeEntry.mk 3 5).hours ≠ 7 ∧
    push_time_entry 7 "42" ⟨2024, 3, 4⟩ [⟨3, 5⟩] =
      ⟨false, [RemoteCall.update 3 ⟨2024, 3, 4⟩ "42" 7 9], [Report.updated]⟩ ∧
    push_time_entry 7 "42" ⟨2024, 3, 4⟩ [] =
      ⟨false, [RemoteCall.create ⟨2024, 3, 4⟩ "42" 7 9], [Report.new]⟩ :=
  ⟨rfl,
   (C5_upsert_determinism 5 "42" ⟨2024, 3, 4⟩ ⟨3, 5⟩).2.1 rfl,
   by norm_num,
   (C5_upsert_determinism 7 "42" ⟨2024, 3, 4⟩ ⟨3, 5⟩).2.2 (by norm_num),
   (C5_upsert_determinism 7 "42" ⟨2024, 3, 4⟩ ⟨3, 5⟩).1⟩

/-- C6: evaluating both variants on an open entry. The hamster `Fact` with a
NULL end yields the sentinel `-1` as claimed; the charm `Event` with a NULL
`end` does NOT yield `(now - start)` hours — accessing `end_date` calls
`strptime(None, ...)`, which raises `TypeError`, so `spent_time` raises
instead of returning a value and the elapsed-since-now branch is dead
code. -/
theorem C6_open_entry_semantics :
    Fact.spent_time ⟨1, 2, ⟨⟨2024, 3, 4⟩, 9, 0, 0⟩, none, "work"⟩ = -1 ∧
    Event.spent_time ⟨⟨2024, 3, 4⟩, 12, 0, 0⟩
      ⟨1, 7, "work", some "2024-03-04T09:00:00", none⟩ =
      Except.error PyError.typeError :=
  ⟨rfl, rfl⟩

/-- C7: evaluating the importer. Starting from an empty local store with one
remote issue, a Category row for the project name is created, but the new
Activity row is NOT linked to it: the Python local `category` still holds
the `None` returned by the query that ran before the insert, so the
Activity is stored with `category=None`. When the Category row already
existed before the pass, the link is made as the claim describes. -/
theorem C7_new_category_unlinked :
    sync_redmine_issues ⟨[], []⟩ [⟨7, "Fix bug", "Proj"⟩] =
      ⟨[⟨"Proj"⟩], [⟨"#7 - Fix bug", "Fix bug 7", none, [], []⟩]⟩ ∧
    sync_redmine_issues ⟨[⟨"Proj"⟩], []⟩ [⟨7, "Fix bug", "Proj"⟩] =
      ⟨[⟨"Proj"⟩], [⟨"#7 - Fix bug", "Fix bug 7", some "Proj", [], []⟩]⟩ := by
  constructor <;> rfl

/-- C3 counterexample: a closed `Fact` whose end (09:00) lies strictly
before its start (10:00, same day). The claim says the computed duration is
negative; the code computes `timedelta.seconds / 3600`, and the seconds
component of the negative timedelta is `82800`, so the duration is `23`
hours — positive, not negative. -/
theorem C3_counterexample_end_before_start :
    (DateTime.mk ⟨2024, 1, 1⟩ 9 0 0).toSeconds <
      (DateTime.mk ⟨2024, 1, 1⟩ 10 0 0).toSeconds ∧
    Fact.spent_time
      ⟨1, 2, ⟨⟨2024, 1, 1⟩, 10, 0, 0⟩, some ⟨⟨2024, 1, 1⟩, 9, 0, 0⟩, "work"⟩ = 23 ∧
    ¬ Fact.spent_time
      ⟨1, 2, ⟨⟨2024, 1, 1⟩, 10, 0, 0⟩, some ⟨⟨2024, 1, 1⟩, 9, 0, 0⟩, "work"⟩ < 0 := by
  have hmod : ((DateTime.mk ⟨2024, 1, 1⟩ 9 0 0).toSeconds -
      (DateTime.mk ⟨2024, 1, 1⟩ 10 0 0).toSeconds) % 86400 = (82800 : Int) := by decide
  have hval : Fact.spent_time
      ⟨1, 2, ⟨⟨2024, 1, 1⟩, 10, 0, 0⟩, some ⟨⟨2024, 1, 1⟩, 9, 0, 0⟩, "work"⟩ = 23 := by
    simp only [Fact.spent_time]
    rw [hmod]
    norm_num
  refine ⟨by decide, hval, ?_⟩
  rw [hval]
  norm_num

/-- C3 amended: the duration of a closed entry is
`((end - start) in seconds, taken mod 86400) / 3600` hours — the seconds
component of the Python timedelta — hence always in `[0, 24)`; it equals
`(end - start)` in hours exactly on the domain where that difference lies
within `[0, 86400)` seconds, and a malformed entry (end before start)
produces a nonnegative wrapped value, never a negative one. -/
theorem C3_closed_duration_wraps_mod_day (f : Fact) (e : DateTime)
    (h : f.end_time = some e) :
    0 ≤ f.spent_time ∧ f.spent_time < 24 ∧
    (0 ≤ e.toSeconds - f.start_time.toSeconds →
      e.toSeconds - f.start_time.toSeconds < 86400 →
      f.spent_time = ((e.toSeconds - f.start_time.toSeconds : Int) : ℚ) / 3600) := by
  have h0 : 0 ≤ (e.toSeconds - f.start_time.toSeconds) % 86400 :=
    Int.emod_nonneg _ (by norm_num)
  have h1 : (e.toSeconds - f.start_time.toSeconds) % 86400 < 86400 :=
    Int.emod_lt_of_pos _ (by norm_num)
  have hs : f.spent_time =
      (((e.toSeconds - f.start_time.toSeconds) % 86400 : Int) : ℚ) / 3600 := by
    simp only [Fact.spent_time, h]
  refine ⟨?_, ?_, ?_⟩
  · rw [hs]
    exact div_nonneg (by exact_mod_cast h0) (by norm_num)
  · rw [hs]
    rw [div_lt_iff₀ (by norm_num : (0:ℚ) < 3600)]
    have : (((e.toSeconds - f.start_time.toSeconds) % 86400 : Int) : ℚ) < 86400 := by
      exact_mod_cast h1
    linarith
  · intro ha hb
    rw [hs, Int.emod_eq_of_lt ha hb]

/-- Witness for the amended C3 at a concrete closed entry
(09:00:00 → 10:30:00, difference 5400 seconds): the duration is
nonnegative, below 24, and equals `5400 / 3600 = 1.5` hours. -/
theorem C3_closed_duration_wraps_mod_day_witness :
    0 ≤ Fact.spent_time
      ⟨1, 2, ⟨⟨2024, 3, 4⟩, 9, 0, 0⟩, some ⟨⟨2024, 3, 4⟩, 10, 30, 0⟩, "work"⟩ ∧
    Fact.spent_time
      ⟨1, 2, ⟨⟨2024, 3, 4⟩, 9, 0, 0⟩, some ⟨⟨2024, 3, 4⟩, 10, 30, 0⟩, "work"⟩ < 24 :=
  ⟨(C3_closed_duration_wraps_mod_day _ _ rfl).1,
   (C3_closed_duration_wraps_mod_day _ _ rfl).2.1⟩

/-- Updating an existing key accumulates in place. -/
theorem addToBucket_cons_eq {k' : Date} {v' v : ℚ} {tl : List (Date × ℚ)} :
    addToBucket ((k', v') :: tl) k' v = (k', v' + v) :: tl := by
  simp [addToBucket]

/-- Updating under a different head key recurses past the head. -/
theorem addToBucket_cons_ne {k k' : Date} {v' v : ℚ} {tl : List (Date × ℚ)}
    (h : k' ≠ k) :
    addToBucket ((k', v') :: tl) k v = (k', v') :: addToBucket tl k v := by
  simp [addToBucket, h]

/-- A key occurs in an updated bucket exactly when it occurs in the old
bucket or is the inserted key. -/
theorem mem_keys_addToBucket {l : List (Date × ℚ)} {k x : Date} {v : ℚ} :
    x ∈ (addToBucket l k v).map Prod.fst ↔ x ∈ l.map Prod.fst ∨ x = k := by
  induction l with
  | nil => simp [addToBucket]
  | cons hd tl ih =>
    rcases hd with ⟨k', v'⟩
    by_cases hk : k' = k
    · subst hk
      rw [addToBucket_cons_eq]
      simp only [List.map_cons, List.mem_cons]
      tauto
    · rw [addToBucket_cons_ne hk]
      simp only [List.map_cons, List.mem_cons, ih]
      tauto

/-- `addToBucket` preserves distinctness of the bucket keys. -/
theorem addToBucket_keys_nodup {l : List (Date × ℚ)} {k : Date} {v : ℚ}
    (h : (l.map Prod.fst).Nodup) : ((addToBucket l k v).map Prod.fst).Nodup := by
  induction l with
  | nil => simp [addToBucket]
  | cons hd tl ih =>
    rcases hd with ⟨k', v'⟩
    simp only [List.map_cons, List.nodup_cons] at h
    by_cases hk : k' = k
    · subst hk
      rw [addToBucket_cons_eq]
      simp only [List.map_cons, List.nodup_cons]
      exact h
    · rw [addToBucket_cons_ne hk]
      simp only [List.map_cons, List.nodup_cons]
      refine ⟨?_, ih h.2⟩
      rw [mem_keys_addToBucket]
      push_neg
      exact ⟨h.1, hk⟩

/-- The keys of the raw accumulation bucket are distinct. -/
theorem bucket_fold_keys_nodup (facts : List Fact) (acc : List (Date × ℚ))
    (h : (acc.map Prod.fst).Nodup) :
    (((facts.foldl
      (fun acc fact => addToBucket acc fact.start_time.date fact.spent_time) acc)).map
        Prod.fst).Nodup := by
  induction facts generalizing acc with
  | nil => exact h
  | cons f fs ih =>
    exact ih _ (addToBucket_keys_nodup h)

/-- The keys of `get_spent_time_per_day` are distinct: one bucket per
calendar day. -/
theorem get_spent_time_per_day_keys_nodup (a : Activity) (begin_date end_date : Date) :
    ((a.get_spent_time_per_day begin_date end_date).map Prod.fst).Nodup := by
  have h := bucket_fold_keys_nodup (a.getFacts Period.week) [] (by simp)
  simp only [Activity.get_spent_time_per_day, List.map_map]
  convert h using 2

/-- In a list with distinct keys, a key determines its value. -/
theorem value_eq_of_keys_nodup {l : List (Date × ℚ)} {k : Date} {v w : ℚ}
    (h : (l.map Prod.fst).Nodup) (hv : (k, v) ∈ l) (hw : (k, w) ∈ l) : v = w := by
  induction l with
  | nil => cases hv
  | cons hd tl ih =>
    simp only [List.map_cons, List.nodup_cons] at h
    rcases List.mem_cons.mp hv with rfl | hv'
    · rcases List.mem_cons.mp hw with hw1 | hw'
      · exact ((Prod.ext_iff.mp hw1).2).symm
      · exact absurd (List.mem_map_of_mem Prod.fst hw') (by simpa using h.1)
    · rcases List.mem_cons.mp hw with rfl | hw'
      · exact absurd (List.mem_map_of_mem Prod.fst hv') (by simpa using h.1)
      · exact ih h.2 hv' hw'

/-- Every push recorded for an activity is a non-zero rounded bucket entry
headed by the first extracted issue id. -/
theorem mem_activity_pushes {begin_date end_date : Date} {a : Activity} {p : Push}
    (hp : p ∈ activity_pushes begin_date end_date a) :
    (p.date, p.spent_time) ∈ a.get_spent_time_per_day begin_date end_date ∧
    p.spent_time ≠ 0 ∧
    ∃ rest, findall_issue a.name = p.issue_id :: rest := by
  unfold activity_pushes at hp
  rcases hf : findall_issue a.name with _ | ⟨iid, rest⟩ <;> rw [hf] at hp
  · cases hp
  · obtain ⟨kv, hkv, heq⟩ := List.mem_filterMap.mp hp
    rcases kv with ⟨day, v⟩
    by_cases hz : v ≠ 0
    · rw [if_pos hz] at heq
      injection heq with heq2
      subst heq2
      exact ⟨hkv, hz, rest, by simp [hf]⟩
    · rw [if_neg hz] at heq
      cases heq

/-- Conversely, a non-zero bucket entry of an activity whose label has an
extractable issue id is recorded as a push. -/
theorem push_mem_activity_pushes {begin_date end_date : Date} {a : Activity}
    {day : Date} {v : ℚ} {iid : String} {rest : List String}
    (hf : findall_issue a.name = iid :: rest)
    (hmem : (day, v) ∈ a.get_spent_time_per_day begin_date end_date) (hv : v ≠ 0) :
    (⟨v, iid, day⟩ : Push) ∈ activity_pushes begin_date end_date a := by
  unfold activity_pushes
  rw [hf]
  exact List.mem_filterMap.mpr ⟨(day, v), hmem, by simp [hv]⟩

/-- Every write decided by `_push_time_entry` carries the `spent_on` date of
the invocation. -/
theorem push_time_entry_writes_date {spent_time : ℚ} {issue_id : String} {date : Date}
    {entries : List RemoteTimeEntry} {c : RemoteCall}
    (hc : c ∈ (push_time_entry spent_time issue_id date entries).writes) :
    c.date = date := by
  match entries with
  | [] =>
    simp only [push_time_entry, List.mem_singleton] at hc
    subst hc; rfl
  | [e] =>
    by_cases he : e.hours ≠ spent_time
    · simp only [push_time_entry, if_pos he, List.mem_singleton] at hc
      subst hc; rfl
    · simp only [push_time_entry, if_neg he, List.not_mem_nil] at hc
  | e1 :: e2 :: rest =>
    simp only [push_time_entry, List.mem_singleton] at hc
    subst hc; rfl

/-- Every remote call of one `_push_time_entry` invocation carries the
`spent_on` date of the invocation. -/
theorem push_calls_date {user_id : Nat} {remote : Date → String → List RemoteTimeEntry}
    {spent_time : ℚ} {issue_id : String} {date : Date} {c : RemoteCall}
    (hc : c ∈ push_calls user_id remote spent_time issue_id date) :
    c.date = date := by
  rcases List.mem_cons.mp hc with rfl | hw
  · rfl
  · exact push_time_entry_writes_date hw

/-- A call in a folded batch of push traces originates in one of the
pushes. -/
theorem mem_foldr_push_calls {user_id : Nat}
    {remote : Date → String → List RemoteTimeEntry} {l : List Push} {c : RemoteCall}
    (hc : c ∈ l.foldr
      (fun p acc => push_calls user_id remote p.spent_time p.issue_id p.date ++ acc) []) :
    ∃ p ∈ l, c ∈ push_calls user_id remote p.spent_time p.issue_id p.date := by
  induction l with
  | nil => cases hc
  | cons p ps ih =>
    simp only [List.foldr_cons, List.mem_append] at hc
    rcases hc with h | h
    · exact ⟨p, List.mem_cons_self _ _, h⟩
    · obtain ⟨q, hq, hcq⟩ := ih h
      exact ⟨q, List.mem_cons_of_mem _ hq, hcq⟩

/-- Conversely, every call of a listed push occurs in the folded batch. -/
theorem mem_foldr_push_calls_of {user_id : Nat}
    {remote : Date → String → List RemoteTimeEntry} {l : List Push} {p : Push}
    {c : RemoteCall} (hp : p ∈ l)
    (hc : c ∈ push_calls user_id remote p.spent_time p.issue_id p.date) :
    c ∈ l.foldr
      (fun p acc => push_calls user_id remote p.spent_time p.issue_id p.date ++ acc) [] := by
  induction l with
  | nil => cases hp
  | cons q qs ih =>
    simp only [List.foldr_cons, List.mem_append]
    rcases List.mem_cons.mp hp with rfl | hp'
    · exact Or.inl hc
    · exact Or.inr (ih hp')

/-- Every remote call of an activity originates in one of its recorded
pushes. -/
theorem mem_activity_calls {user_id : Nat} {remote : Date → String → List RemoteTimeEntry}
    {begin_date end_date : Date} {a : Activity} {c : RemoteCall}
    (hc : c ∈ activity_calls user_id remote begin_date end_date a) :
    ∃ p ∈ activity_pushes begin_date end_date a,
      c ∈ push_calls user_id remote p.spent_time p.issue_id p.date := by
  unfold activity_calls at hc
  exact mem_foldr_push_calls hc

/-- Conversely, every call of a recorded push occurs in the activity
trace. -/
theorem push_calls_subset_activity_calls {user_id : Nat}
    {remote : Date → String → List RemoteTimeEntry} {begin_date end_date : Date}
    {a : Activity} {p : Push} {c : RemoteCall}
    (hp : p ∈ activity_pushes begin_date end_date a)
    (hc : c ∈ push_calls user_id remote p.spent_time p.issue_id p.date) :
    c ∈ activity_calls user_id remote begin_date end_date a := by
  unfold activity_calls
  exact mem_foldr_push_calls_of hp hc

/-- Evaluation helper: rounding `1` to a half hour returns `1`. -/
theorem round_half_hour_one : round_half_hour 1 = 1 := by
  have hm : (1 : ℚ) * 2 = 2 := by norm_num
  have hf : ⌊(2 : ℚ)⌋ = 2 := by
    rw [Int.floor_eq_iff]; norm_num
  simp only [round_half_hour, hm, pyRound, hf]
  norm_num

/-- Evaluation helper: rounding `-1` to a half hour returns `-1`. -/
theorem round_half_hour_neg_one : round_half_hour (-1) = -1 := by
  have hm : (-1 : ℚ) * 2 = ((-2 : ℤ) : ℚ) := by norm_num
  simp only [round_half_hour, hm, pyRound, Int.floor_intCast, sub_self]
  norm_num

/-- Evaluation helper: ten minutes (`1/6` of an hour) rounds to zero. -/
theorem round_half_hour_sixth : round_half_hour (1/6) = 0 := by
  have hm : (1/6 : ℚ) * 2 = 1/3 := by norm_num
  have hf : ⌊(1/3 : ℚ)⌋ = 0 := by
    rw [Int.floor_eq_iff]; norm_num
  simp only [round_half_hour, hm, pyRound, hf]
  norm_num

/-- Evaluation helper: a closed one-hour fact (09:00 → 10:00) accrues `1`. -/
theorem spent_time_one_hour_fact :
    Fact.spent_time ⟨2, 2, ⟨⟨2024, 3, 6⟩, 9, 0, 0⟩, some ⟨⟨2024, 3, 6⟩, 10, 0, 0⟩, "hour"⟩
      = 1 := by
  have hmod : ((DateTime.mk ⟨2024, 3, 6⟩ 10 0 0).toSeconds -
      (DateTime.mk ⟨2024, 3, 6⟩ 9 0 0).toSeconds) % 86400 = (3600 : Int) := by decide
  simp only [Fact.spent_time]
  rw [hmod]
  norm_num

/-- Evaluation helper: a closed ten-minute fact (09:00 → 09:10) accrues
`1/6`. -/
theorem spent_time_ten_minute_fact :
    Fact.spent_time ⟨1, 2, ⟨⟨2024, 3, 5⟩, 9, 0, 0⟩, some ⟨⟨2024, 3, 5⟩, 9, 10, 0⟩, "short"⟩
      = 1/6 := by
  have hmod : ((DateTime.mk ⟨2024, 3, 5⟩ 9 10 0).toSeconds -
      (DateTime.mk ⟨2024, 3, 5⟩ 9 0 0).toSeconds) % 86400 = (600 : Int) := by decide
  simp only [Fact.spent_time]
  rw [hmod]
  norm_num

/-- C8: a day whose rounded accumulated total is exactly `0.0` never
produces a remote call: `if spent_time:` filters it out before
`_push_time_entry` runs, so neither the filter round-trip nor a create or
update is ever issued with that `spent_on` date by the owning activity. -/
theorem C8_zero_day_no_remote_call (user_id : Nat)
    (remote : Date → String → List RemoteTimeEntry) (begin_date end_date : Date)
    (a : Activity) (day : Date) (c : RemoteCall)
    (hzero : (day, (0 : ℚ)) ∈ a.get_spent_time_per_day begin_date end_date)
    (hc : c ∈ activity_calls user_id remote begin_date end_date a) :
    c.date ≠ day := by
  obtain ⟨p, hp, hcp⟩ := mem_activity_calls hc
  obtain ⟨hmem, hne, -⟩ := mem_activity_pushes hp
  have hd := push_calls_date hcp
  intro hdy
  apply hne
  have hpd : p.date = day := hd.symm.trans hdy
  rw [hpd] at hmem
  exact value_eq_of_keys_nodup
    (get_spent_time_per_day_keys_nodup a begin_date end_date) hmem hzero

/-- Witness for C8: an activity labelled `#42 demo` with a ten-minute fact
on 2024-03-05 (rounds to `0`) and a one-hour fact on 2024-03-06. The
zero day 2024-03-05 is in the bucket, the trace contains the filter call
for 2024-03-06, and by C8 that call does not target the zero day. -/
theorem C8_zero_day_no_remote_call_witness :
    ((⟨2024, 3, 5⟩ : Date), (0 : ℚ)) ∈
      (Activity.mk "#42 demo" "" none
        [⟨1, 2, ⟨⟨2024, 3, 5⟩, 9, 0, 0⟩, some ⟨⟨2024, 3, 5⟩, 9, 10, 0⟩, "short"⟩,
         ⟨2, 2, ⟨⟨2024, 3, 6⟩, 9, 0, 0⟩, some ⟨⟨2024, 3, 6⟩, 10, 0, 0⟩, "hour"⟩]
        []).get_spent_time_per_day ⟨2024, 3, 4⟩ ⟨2024, 3, 10⟩ ∧
    RemoteCall.filter ⟨2024, 3, 6⟩ "42" 1 ∈
      activity_calls 1 (fun _ _ => []) ⟨2024, 3, 4⟩ ⟨2024, 3, 10⟩
        (Activity.mk "#42 demo" "" none
          [⟨1, 2, ⟨⟨2024, 3, 5⟩, 9, 0, 0⟩, some ⟨⟨2024, 3, 5⟩, 9, 10, 0⟩, "short"⟩,
           ⟨2, 2, ⟨⟨2024, 3, 6⟩, 9, 0, 0⟩, some ⟨⟨2024, 3, 6⟩, 10, 0, 0⟩, "hour"⟩]
          []) ∧
    (RemoteCall.filter ⟨2024, 3, 6⟩ "42" 1).date ≠ ⟨2024, 3, 5⟩ := by
  have hb : (Activity.mk "#42 demo" "" none
      [⟨1, 2, ⟨⟨2024, 3, 5⟩, 9, 0, 0⟩, some ⟨⟨2024, 3, 5⟩, 9, 10, 0⟩, "short"⟩,
       ⟨2, 2, ⟨⟨2024, 3, 6⟩, 9, 0, 0⟩, some ⟨⟨2024, 3, 6⟩, 10, 0, 0⟩, "hour"⟩]
      []).get_spent_time_per_day ⟨2024, 3, 4⟩ ⟨2024, 3, 10⟩ =
      [(⟨2024, 3, 5⟩, 0), (⟨2024, 3, 6⟩, 1)] := by
    simp only [Activity.get_spent_time_per_day, Activity.getFacts, List.foldl_cons,
      List.foldl_nil, spent_time_ten_minute_fact, spent_time_one_hour_fact, addToBucket]
    rw [if_neg (by decide : ¬ (⟨2024, 3, 5⟩ : Date) = ⟨2024, 3, 6⟩)]
    simp only [addToBucket, List.map_cons, List.map_nil, round_half_hour_sixth,
      round_half_hour_one]
  have hfind : findall_issue "#42 demo" = ["42"] := by decide
  have hpushes : activity_pushes ⟨2024, 3, 4⟩ ⟨2024, 3, 10⟩
      (Activity.mk "#42 demo" "" none
        [⟨1, 2, ⟨⟨2024, 3, 5⟩, 9, 0, 0⟩, some ⟨⟨2024, 3, 5⟩, 9, 10, 0⟩, "short"⟩,
         ⟨2, 2, ⟨⟨2024, 3, 6⟩, 9, 0, 0⟩, some ⟨⟨2024, 3, 6⟩, 10, 0, 0⟩, "hour"⟩]
        []) = [⟨1, "42", ⟨2024, 3, 6⟩⟩] := by
    unfold activity_pushes
    rw [hfind, hb]
    simp
  have hmem0 : ((⟨2024, 3, 5⟩ : Date), (0 : ℚ)) ∈
      (Activity.mk "#42 demo" "" none
        [⟨1, 2, ⟨⟨2024, 3, 5⟩, 9, 0, 0⟩, some ⟨⟨2024, 3, 5⟩, 9, 10, 0⟩, "short"⟩,
         ⟨2, 2, ⟨⟨2024, 3, 6⟩, 9, 0, 0⟩, some ⟨⟨2024, 3, 6⟩, 10, 0, 0⟩, "hour"⟩]
        []).get_spent_time_per_day ⟨2024, 3, 4⟩ ⟨2024, 3, 10⟩ := by
    rw [hb]
    exact List.mem_cons_self _ _
  have hcmem : RemoteCall.filter ⟨2024, 3, 6⟩ "42" 1 ∈
      activity_calls 1 (fun _ _ => []) ⟨2024, 3, 4⟩ ⟨2024, 3, 10⟩
        (Activity.mk "#42 demo" "" none
          [⟨1, 2, ⟨⟨2024, 3, 5⟩, 9, 0, 0⟩, some ⟨⟨2024, 3, 5⟩, 9, 10, 0⟩, "short"⟩,
           ⟨2, 2, ⟨⟨2024, 3, 6⟩, 9, 0, 0⟩, some ⟨⟨2024, 3, 6⟩, 10, 0, 0⟩, "hour"⟩]
          []) := by
    unfold activity_calls
    rw [hpushes]
    simp [push_calls]
  exact ⟨hmem0, hcmem,
    C8_zero_day_no_remote_call 1 (fun _ _ => []) ⟨2024, 3, 4⟩ ⟨2024, 3, 10⟩ _
      ⟨2024, 3, 5⟩ _ hmem0 hcmem⟩

/-- C9: an activity whose label has no `#<digits>` pattern is silently
skipped by the push sync — no push is recorded and no remote call at all is
issued for it (the `IndexError` of `[0]` on the empty match list is caught
and turned into `continue`) — while an activity with at least one match
uses exactly the first match as the issue id of every push it records. -/
theorem C9_missing_issue_linkage_skips (user_id : Nat)
    (remote : Date → String → List RemoteTimeEntry) (begin_date end_date : Date)
    (a : Activity) :
    (findall_issue a.name = [] →
      activity_pushes begin_date end_date a = [] ∧
      activity_calls user_id remote begin_date end_date a = []) ∧
    (∀ iid rest p, findall_issue a.name = iid :: rest →
      p ∈ activity_pushes begin_date end_date a → p.issue_id = iid) := by
  constructor
  · intro h
    have hp : activity_pushes begin_date end_date a = [] := by
      unfold activity_pushes
      rw [h]
    refine ⟨hp, ?_⟩
    unfold activity_calls
    rw [hp]
    rfl
  · intro iid rest p hf hp
    obtain ⟨-, -, rest', hf'⟩ := mem_activity_pushes hp
    rw [hf] at hf'
    injection hf' with h1 h2
    exact h1.symm

/-- Witness for C9: the activity `refactor session handling` (a one-hour
fact, but no issue pattern) records no push and issues no remote call; the
activity `#42 demo` records pushes whose issue id is the first match
`42`. -/
theorem C9_missing_issue_linkage_skips_witness :
    findall_issue "refactor session handling" = [] ∧
    activity_pushes ⟨2024, 3, 4⟩ ⟨2024, 3, 10⟩
      (Activity.mk "refactor session handling" "" none
        [⟨2, 2, ⟨⟨2024, 3, 6⟩, 9, 0, 0⟩, some ⟨⟨2024, 3, 6⟩, 10, 0, 0⟩, "hour"⟩] []) = [] ∧
    activity_calls 1 (fun _ _ => []) ⟨2024, 3, 4⟩ ⟨2024, 3, 10⟩
      (Activity.mk "refactor session handling" "" none
        [⟨2, 2, ⟨⟨2024, 3, 6⟩, 9, 0, 0⟩, some ⟨⟨2024, 3, 6⟩, 10, 0, 0⟩, "hour"⟩] []) = [] ∧
    findall_issue "#42 demo" = ["42"] ∧
    Push.issue_id ⟨1, "42", ⟨2024, 3, 6⟩⟩ = "42" := by
  have hnone : findall_issue "refactor session handling" = [] := by decide
  have h42 : findall_issue "#42 demo" = ["42"] := by decide
  have hskip := (C9_missing_issue_linkage_skips 1 (fun _ _ => []) ⟨2024, 3, 4⟩ ⟨2024, 3, 10⟩
    (Activity.mk "refactor session handling" "" none
      [⟨2, 2, ⟨⟨2024, 3, 6⟩, 9, 0, 0⟩, some ⟨⟨2024, 3, 6⟩, 10, 0, 0⟩, "hour"⟩] [])).1 hnone
  have hb : (Activity.mk "#42 demo" "" none
      [⟨2, 2, ⟨⟨2024, 3, 6⟩, 9, 0, 0⟩, some ⟨⟨2024, 3, 6⟩, 10, 0, 0⟩, "hour"⟩]
      []).get_spent_time_per_day ⟨2024, 3, 4⟩ ⟨2024, 3, 10⟩ =
      [(⟨2024, 3, 6⟩, 1)] := by
    simp only [Activity.get_spent_time_per_day, Activity.getFacts, List.foldl_cons,
      List.foldl_nil, spent_time_one_hour_fact, addToBucket, List.map_cons, List.map_nil,
      round_half_hour_one]
  have hpushes : activity_pushes ⟨2024, 3, 4⟩ ⟨2024, 3, 10⟩
      (Activity.mk "#42 demo" "" none
        [⟨2, 2, ⟨⟨2024, 3, 6⟩, 9, 0, 0⟩, some ⟨⟨2024, 3, 6⟩, 10, 0, 0⟩, "hour"⟩]
        []) = [⟨1, "42", ⟨2024, 3, 6⟩⟩] := by
    unfold activity_pushes
    rw [h42, hb]
    simp
  have hid := (C9_missing_issue_linkage_skips 1 (fun _ _ => []) ⟨2024, 3, 4⟩ ⟨2024, 3, 10⟩
    (Activity.mk "#42 demo" "" none
      [⟨2, 2, ⟨⟨2024, 3, 6⟩, 9, 0, 0⟩, some ⟨⟨2024, 3, 6⟩, 10, 0, 0⟩, "hour"⟩] [])).2
    "42" [] ⟨1, "42", ⟨2024, 3, 6⟩⟩ h42 (by rw [hpushes]; exact List.mem_cons_self _ _)
  exact ⟨hnone, hskip.1, hskip.2, h42, hid⟩

/-- C10: the push gate `if spent_time:` tests truthiness, not sign — every
non-zero rounded day total, negative ones included, is pushed: the push is
recorded, the remote filter round-trip is issued, and with no existing
remote match a create carrying the (possibly negative) hours is issued. -/
theorem C10_truthiness_pushes_nonzero (user_id : Nat)
    (remote : Date → String → List RemoteTimeEntry) (begin_date end_date : Date)
    (a : Activity) (day : Date) (v : ℚ) (iid : String) (rest : List String)
    (hf : findall_issue a.name = iid :: rest)
    (hmem : (day, v) ∈ a.get_spent_time_per_day begin_date end_date)
    (hv : v ≠ 0) :
    (⟨v, iid, day⟩ : Push) ∈ activity_pushes begin_date end_date a ∧
    RemoteCall.filter day iid user_id ∈
      activity_calls user_id remote begin_date end_date a ∧
    (remote day iid = [] →
      RemoteCall.create day iid v 9 ∈
        activity_calls user_id remote begin_date end_date a) := by
  have hpush := push_mem_activity_pushes hf hmem hv
  refine ⟨hpush, ?_, ?_⟩
  · exact push_calls_subset_activity_calls hpush (List.mem_cons_self _ _)
  · intro hr
    apply push_calls_subset_activity_calls hpush
    show RemoteCall.create day iid v 9 ∈
      RemoteCall.filter day iid user_id ::
        (push_time_entry v iid day (remote day iid)).writes
    rw [hr]
    exact List.mem_cons_of_mem _ (List.mem_cons_self _ _)

/-- Witness for C10: the activity `#42 demo` holds a single open fact
(2024-03-05, no end); its sentinel duration `-1` dominates the day, the
rounded total is `-1`, and against an empty remote state the sync issues a
create carrying `-1` hours. -/
theorem C10_truthiness_pushes_nonzero_witness :
    findall_issue "#42 demo" = ["42"] ∧
    ((⟨2024, 3, 5⟩ : Date), (-1 : ℚ)) ∈
      (Activity.mk "#42 demo" "" none
        [⟨1, 2, ⟨⟨2024, 3, 5⟩, 9, 0, 0⟩, none, "open"⟩]
        []).get_spent_time_per_day ⟨2024, 3, 4⟩ ⟨2024, 3, 10⟩ ∧
    ((-1 : ℚ) ≠ 0) ∧
    RemoteCall.create ⟨2024, 3, 5⟩ "42" (-1) 9 ∈
      activity_calls 1 (fun _ _ => []) ⟨2024, 3, 4⟩ ⟨2024, 3, 10⟩
        (Activity.mk "#42 demo" "" none
          [⟨1, 2, ⟨⟨2024, 3, 5⟩, 9, 0, 0⟩, none, "open"⟩]
          []) := by
  have h42 : findall_issue "#42 demo" = ["42"] := by decide
  have hb : (Activity.mk "#42 demo" "" none
      [⟨1, 2, ⟨⟨2024, 3, 5⟩, 9, 0, 0⟩, none, "open"⟩]
      []).get_spent_time_per_day ⟨2024, 3, 4⟩ ⟨2024, 3, 10⟩ =
      [(⟨2024, 3, 5⟩, -1)] := by
    have hs : Fact.spent_time ⟨1, 2, ⟨⟨2024, 3, 5⟩, 9, 0, 0⟩, none, "open"⟩ = -1 := rfl
    simp only [Activity.get_spent_time_per_day, Activity.getFacts, List.foldl_cons,
      List.foldl_nil, hs, addToBucket, List.map_cons, List.map_nil,
      round_half_hour_neg_one]
  have hmem : ((⟨2024, 3, 5⟩ : Date), (-1 : ℚ)) ∈
      (Activity.mk "#42 demo" "" none
        [⟨1, 2, ⟨⟨2024, 3, 5⟩, 9, 0, 0⟩, none, "open"⟩]
        []).get_spent_time_per_day ⟨2024, 3, 4⟩ ⟨2024, 3, 10⟩ := by
    rw [hb]
    exact List.mem_cons_self _ _
  refine ⟨h42, hmem, by norm_num, ?_⟩
  exact (C10_truthiness_pushes_nonzero 1 (fun _ _ => []) ⟨2024, 3, 4⟩ ⟨2024, 3, 10⟩ _
    ⟨2024, 3, 5⟩ (-1) "42" [] h42 hmem (by norm_num)).2.2 rfl

end HRSync
